import Mathlib

/-!
Verification of the factory-based record synthesis engine of
`src/addon/server.js` (the Mirage server class).

The JavaScript source is shallowly embedded: JS objects / attribute maps
become insertion-ordered association lists `List (String × Value)`, the
mutable server instance (`this.factorySequences`, `this.db`) becomes an
explicit `ServerState` threaded through every operation, and thrown
errors become the error side of `Except`.  The error value carries the
server state at the moment of the throw, so that "nothing was inserted
before the failure" is expressible.  The mutual recursion
`build → _mapAssociationsFromAttributes → create → build` is made total
with an explicit fuel parameter; running out of fuel yields the
distinguished `MirageError.outOfFuel` (never confused with a real error
of the source program).

Collaborator modules that are not part of the embedded source
(`addon/factory.js`, the inflector, `addon/db.js`) are modelled from the
specification; each such definition carries a doc comment starting with
`Modelled from the spec:`.
-/

namespace Mirage

/-- JavaScript values as far as the factory engine inspects them:
`undefined`, `null`, booleans, numbers, strings, plain objects,
the `association(...)` placeholder (carrying its bundled
`traitsAndOverrides` arguments), trait definitions (carrying their
attribute extension), and value-generating functions of the sequence
number (spec section 3: "a value-generating function (may consult the
sequence number)"). -/
inductive Value where
  | vUndefined : Value
  | vNull : Value
  | vBool : Bool → Value
  | vNum : Int → Value
  | vStr : String → Value
  | vObj : List (String × Value) → Value
  | vAssoc : List Value → Value
  | vTrait : List (String × Value) → Value
  | vGen : (Nat → Value) → Value

/-- A JS object: an insertion-ordered association list with unique keys. -/
abbrev AttrMap := List (String × Value)

/-- Lookup of a property (`m[k]`), first occurrence. -/
def getEntry {α : Type} : List (String × α) → String → Option α
  | [], _ => none
  | p :: rest, k => if p.1 == k then some p.2 else getEntry rest k

/-- Property assignment (`m[k] = v`): updates the entry in place if the key
exists (JS objects keep the original insertion position), else appends. -/
def setEntry {α : Type} : List (String × α) → String → α → List (String × α)
  | [], k, v => [(k, v)]
  | p :: rest, k, v => if p.1 == k then (k, v) :: rest else p :: setEntry rest k v

/-- Property deletion (`delete m[k]`). -/
def removeEntry {α : Type} : List (String × α) → String → List (String × α)
  | [], _ => []
  | p :: rest, k => if p.1 == k then removeEntry rest k else p :: removeEntry rest k

/-- `_assign(target, source)` from lodash: copy every own property of
`source` onto `target`, in key order of `source`. -/
def objAssign (target source : AttrMap) : AttrMap :=
  source.foldl (fun accum p => setEntry accum p.1 p.2) target

/-- JS truthiness of an embedded value. -/
def truthy : Value → Bool
  | .vUndefined => false
  | .vNull => false
  | .vBool b => b
  | .vNum n => n != 0
  | .vStr s => s != ""
  | _ => true

/-- `_isPlainObject` from lodash, on the embedded values. -/
def isPlainObject : Value → Bool
  | .vObj _ => true
  | _ => false

/-- `isAssociation` from `utils/is-association`: recognizes the
`association(...)` placeholder. -/
def isAssociation : Value → Bool
  | .vAssoc _ => true
  | _ => false

/-- Recognizes a trait definition value. -/
def isTraitVal : Value → Bool
  | .vTrait _ => true
  | _ => false

/-- The plain object carried by a value, `{}` otherwise. -/
def objOf : Value → AttrMap
  | .vObj m => m
  | _ => []

/-- `arg && typeof arg === 'string'`: the trait-name arguments (non-empty
strings) of a variadic argument list, in order. -/
def stringArgs (args : List Value) : List String :=
  args.filterMap (fun a =>
    match a with
    | .vStr s => if s == "" then none else some s
    | _ => none)

/-- `_find(args, isPlainObject)`: the first plain-object argument,
`undefined` when there is none. -/
def overridesOf (args : List Value) : Value :=
  (args.find? isPlainObject).getD .vUndefined

/-- Modelled from the spec: `camelize` from the inflection collaborator
(spec section 6, a pure string transform not under the embedded source):
drops separators and uppercases the character following each one. -/
def camelizeGo : List Char → Bool → List Char
  | [], _ => []
  | c :: cs, up =>
    if c = '-' || c = '_' || c = '.' || c = ' ' then camelizeGo cs true
    else (if up then c.toUpper else c) :: camelizeGo cs false

/-- Modelled from the spec: `camelize`, with the leading character
lowercased. -/
def camelize (s : String) : String :=
  match camelizeGo s.toList false with
  | [] => ""
  | c :: cs => String.mk (c.toLower :: cs)

/-- Whether the final character of the string is an s. -/
def endsInS (s : String) : Bool :=
  match s.toList.getLast? with
  | some c => c == 's'
  | none => false

/-- Modelled from the spec: `pluralize` from the inflection collaborator
(regular nouns only: append an s unless already present). -/
def pluralize (s : String) : String :=
  if endsInS s then s else s ++ "s"

/-- Modelled from the spec: `singularize` from the inflection
collaborator (regular nouns only). -/
def singularize (s : String) : String :=
  if endsInS s then String.mk s.toList.dropLast else s

/-- Modelled from the spec: `toCollectionName` from
`utils/normalize-name`: the camelized plural of the model name. -/
def toCollectionName (type : String) : String :=
  camelize (pluralize type)

/-- Modelled from the spec: `toInternalCollectionName` from
`utils/normalize-name`: the collection name with a leading underscore. -/
def toInternalCollectionName (type : String) : String :=
  "_" ++ toCollectionName type

/-- The error taxonomy of spec section 7; the source throws via
`assert` / `throw new Error`, classified here by that taxonomy.
`outOfFuel` is an artifact of the fuel-based embedding only. -/
inductive MirageError where
  | configurationError : String → MirageError
  | associationError : String → MirageError
  | validationError : String → MirageError
  | typeError : String → MirageError
  | outOfFuel : MirageError
deriving Repr, DecidableEq

/-- Message of the `_validateTraits` throw (server.js line 610); the JS
quoting around the interpolated names is elided. -/
def traitErrMsg (traitName type : String) : String :=
  traitName ++ " trait is not registered in " ++ type ++ " factory"

/-- Message of the `buildList` / `createList` integer assertion
(server.js lines 367 and 502); `typeof amount` is always "number" here. -/
def intErrMsg : String :=
  "second argument has to be an integer, you passed: number"

/-- Message of the `create` existence assertion (server.js line 423);
punctuation of the original is elided. -/
def createNoModelMsg (type : String) : String :=
  "You called server.create(" ++ type ++
    ") but no model or factory was found. Make sure you are passing in the singularized version of the model or factory name."

/-- Message of the `createList` existence assertion (server.js line 501). -/
def createListNoModelMsg (type : String) : String :=
  "You called server.createList(" ++ type ++
    ") but no model or factory was found. Make sure you are passing in the singularized version of the model or factory name."

/-- Message of the belongs-to assertion of
`_mapAssociationsFromAttributes` (server.js lines 642-644); backquotes of
the original are elided. -/
def notBelongsToMsg (attr modelName : String) : String :=
  "You are using the association factory helper on the " ++ attr ++
    " attribute of your " ++ modelName ++
    " factory, but that attribute is not a belongsTo association. Read the Factories docs for more information: http://www.ember-cli-mirage.com/docs/v0.3.x/factories/#factories-and-relationships"

/-- Message of the self-referential assertion of
`_mapAssociationsFromAttributes` (server.js line 648). -/
def selfRefMsg (modelName attr : String) : String :=
  "You are using the association() helper on your " ++ modelName ++
    " factory for " ++ attr ++
    ", which is a belongsTo self-referential relationship. You cannot do this as it will lead to infinite recursion. You can move the helper inside of a trait and use it selectively."

/-- Modelled from the spec: message of the schema lookup for an
unregistered model (`schema.modelClassFor`, not under the embedded
source; spec section 7 classifies it as a configuration error). -/
def modelNotRegisteredMsg (modelName : String) : String :=
  "Model not registered: " ++ modelName

/-- Relationship kinds of a schema entry (spec section 3: SchemaEntry). -/
inductive AssocKind where
  | belongsTo : AssocKind
  | hasMany : AssocKind
deriving Repr, DecidableEq

/-- A relationship descriptor: kind and target model name
(`association.modelName` in the source). -/
structure AssocDescr where
  kind : AssocKind
  modelName : String
deriving Repr, DecidableEq

/-- A factory definition: its `attrs` map.  Trait declarations live
inside `attrs` as `vTrait` entries, exactly as in the source
(`attrs[traitName].extension`, server.js line 622). -/
structure FactoryDef where
  attrs : AttrMap

/-- The immutable configuration of a server: the loaded factory map
(keyed as loaded, looked up under `camelize`, server.js lines 330-336)
and the schema's registered models with their relationship descriptors. -/
structure Env where
  factories : List (String × FactoryDef)
  models : List (String × List (String × AssocDescr))

/-- `factoryFor` (server.js lines 330-336). -/
def factoryFor (env : Env) (type : String) : Option FactoryDef :=
  getEntry env.factories (camelize type)

/-- Modelled from the spec: `schema.modelFor` / `schema.modelClassFor`
(the ORM schema is not under the embedded source); yields the model's
relationship descriptors. -/
def modelFor (env : Env) (type : String) : Option (List (String × AssocDescr)) :=
  getEntry env.models (camelize type)

/-- One store collection: its inserted records in insertion order and
the next identity to assign. -/
structure DbCollection where
  records : List AttrMap
  nextId : Nat

/-- The mutable server state: `this.factorySequences` and `this.db`. -/
structure ServerState where
  factorySequences : List (String × Nat)
  db : List (String × DbCollection)

/-- `this.factorySequences[t] = this.factorySequences[t] + 1 || 0`
(server.js line 345): `undefined + 1` is `NaN`, and `NaN || 0` is `0`,
so an absent counter becomes `0`; a present counter `n` becomes `n + 1`
(`n + 1` is never falsy for `n` at least 0). -/
def nextSeq : Option Nat → Nat
  | some n => n + 1
  | none => 0

/-- The sequence-advance of `build` (server.js lines 344-345) as a state
update. -/
def bumpState (s : ServerState) (camelizedType : String) : ServerState :=
  { s with factorySequences :=
      (setEntry s.factorySequences camelizedType
        (nextSeq (getEntry s.factorySequences camelizedType))) }

/-- Modelled from the spec: record insertion of the collection store
(`addon/db.js` is not under the embedded source).  Per spec sections 2
and 3: the collection auto-creates on first reference, every inserted
record is assigned an identity (kept when the caller supplied one), and
records are append-only. -/
def dbInsert (s : ServerState) (collName : String) (attrs : Value) : Value × ServerState :=
  let coll := (getEntry s.db collName).getD ⟨[], 1⟩
  let m := objOf attrs
  let record :=
    if (getEntry m "id").isSome then m
    else setEntry m "id" (.vNum (coll.nextId : Int))
  (.vObj record,
    { s with db := setEntry s.db collName ⟨coll.records ++ [record], coll.nextId + 1⟩ })

/-- The `.id` property of a created record
(`this.create(...).id`, server.js line 653). -/
def recordId : Value → Value
  | .vObj m => (getEntry m "id").getD .vUndefined
  | _ => .vUndefined

/-- Modelled from the spec: `factory.isTrait(name)` of `addon/factory.js`
(not under the embedded source): the factory attribute `name` exists and
is a trait definition. -/
def factoryIsTrait (F : FactoryDef) (name : String) : Bool :=
  match getEntry F.attrs name with
  | some (.vTrait _) => true
  | _ => false

/-- `_validateTraits` (server.js lines 607-613): throws at the first
trait name not registered on the factory. -/
def _validateTraits (F : FactoryDef) (type : String) : List String → Option MirageError
  | [] => none
  | t :: ts =>
    if factoryIsTrait F t then _validateTraits F type ts
    else some (.configurationError (traitErrMsg t type))

/-- The attribute extension of a declared trait
(`attrs[traitName].extension`, server.js line 622). -/
def traitExtension (attrs : AttrMap) (traitName : String) : AttrMap :=
  match getEntry attrs traitName with
  | some (.vTrait extension) => extension
  | _ => []

/-- `_mergeExtensions` (server.js lines 620-628): the trait extensions in
the given order, then `overrides || {}`, folded with `_assign` onto a
fresh object. -/
def _mergeExtensions (attrs : AttrMap) (traits : List String) (overrides : Value) : AttrMap :=
  let allExtensions := traits.map (fun traitName => traitExtension attrs traitName)
  let allExtensions := allExtensions ++ [objOf overrides]
  allExtensions.foldl (fun accum extension => objAssign accum extension) []

/-- `association && association instanceof BelongsTo`
(server.js line 642). -/
def isBelongsToAssoc : Option AssocDescr → Bool
  | some d => d.kind == AssocKind.belongsTo
  | none => false

/-- Modelled from the spec: `factory.build(sequence)` composed with
`OriginalFactory.extend(mergedExtensions)` of `addon/factory.js` (not
under the embedded source).  Per spec sections 4.2 and 4.4: the base
attributes extended by the merged trait/override extensions (later
wins), trait-definition entries dropped, and generator attributes
applied to the sequence number. -/
def factoryBuild (attrs merged : AttrMap) (sequence : Nat) : Value :=
  .vObj (((objAssign attrs merged).filter (fun p => !(isTraitVal p.2))).map
    (fun p => (p.1,
      match p.2 with
      | .vGen f => f sequence
      | v => v)))

/-- `_typeIsPluralForModel` (server.js lines 570-576). -/
def _typeIsPluralForModel (env : Env) (s : ServerState) (typeOrCollectionName : String) : Bool :=
  let modelOrFactoryExists :=
    (modelFor env typeOrCollectionName).isSome ||
      (getEntry s.db (toInternalCollectionName typeOrCollectionName)).isSome
  let isPlural := typeOrCollectionName == pluralize typeOrCollectionName
  let isUncountable := singularize typeOrCollectionName == pluralize typeOrCollectionName
  isPlural && !isUncountable && modelOrFactoryExists

/-- `_modelOrFactoryExistsForType` (server.js lines 583-588). -/
def _modelOrFactoryExistsForType (env : Env) (s : ServerState) (type : String) : Bool :=
  let modelExists := (modelFor env type).isSome
  let dbCollectionExists := (getEntry s.db (toInternalCollectionName type)).isSome
  (modelExists || dbCollectionExists) && !(_typeIsPluralForModel env s type)

/-- Results of a stateful, fallible operation: either a value with the
resulting state, or a thrown error with the state at the throw. -/
abbrev Res (α : Type) := Except (MirageError × ServerState) (α × ServerState)

/-!
The operations `build`, `create`, `createList` and
`_mapAssociationsFromAttributes` are mutually recursive through the
related-record creation of the association resolver.  To keep every
definition computable by plain structural recursion (so that concrete
runs reduce definitionally), the knot is tied through a fuel-indexed
`Engine` bundle: `engine 0` fails with `outOfFuel`, and `engine (n + 1)`
is built from the faithful per-operation bodies, each calling back into
`engine n`.  The source-named entry points below are the projections.
-/

/-- The bundle of the mutually recursive operations at a given fuel. -/
structure Engine where
  buildE : Env → String → List Value → ServerState → Res Value
  createE : Env → String → List Value → ServerState → Res Value
  createListE : Env → String → Rat → List Value → ServerState → Res (List Value)
  createListGoE : Env → String → List Value → Nat → ServerState → Res (List Value)
  mapAssocE : Env → String → AttrMap → AttrMap → ServerState → Res AttrMap
  mapAssocGoE : Env → String → AttrMap → List String → AttrMap → ServerState → Res AttrMap

/-- `build` (server.js lines 338-364).  When a factory is registered:
validate traits, merge extensions, resolve associations in the base
attrs (against the overrides) and in the merged extensions (against the
default empty overrides), re-read the sequence counter and build the
final attribute map.  Else: return the override argument verbatim.  The
sequence counter is advanced in every case, before the factory lookup. -/
def buildB (E : Engine) (env : Env) (type : String) (args : List Value)
    (s : ServerState) : Res Value :=
  let traits := stringArgs args
  let overrides := overridesOf args
  let camelizedType := camelize type
  let s := bumpState s camelizedType
  match factoryFor env type with
  | some F =>
    let attrs := F.attrs
    match _validateTraits F type traits with
    | some e => .error (e, s)
    | none =>
      let mergedExtensions := _mergeExtensions attrs traits overrides
      match E.mapAssocE env type attrs (objOf overrides) s with
      | .error es => .error es
      | .ok (attrs2, s2) =>
        match E.mapAssocE env type mergedExtensions [] s2 with
        | .error es => .error es
        | .ok (merged2, s3) =>
          let sequence := (getEntry s3.factorySequences camelizedType).getD 0
          .ok (factoryBuild attrs2 merged2 sequence, s3)
  | none => .ok (overrides, s)

/-- `create` (server.js lines 422-461): existence assertion, `build`,
then insertion — through the ORM collection when the model is
registered, else through the raw db collection.  The internal
collection argument that `createList` threads through (an array value)
and the post-creation `afterCreate` hooks are outside the embedded
claims and are not modelled. -/
def createB (E : Engine) (env : Env) (type : String) (options : List Value)
    (s : ServerState) : Res Value :=
  if !(_modelOrFactoryExistsForType env s type) then
    .error (.configurationError (createNoModelMsg type), s)
  else
    let traits := stringArgs options
    let overrides := overridesOf options
    match E.buildE env type (traits.map .vStr ++ [overrides]) s with
    | .error es => .error es
    | .ok (attrs, s2) =>
      if (modelFor env type).isSome then
        .ok (dbInsert s2 (toInternalCollectionName type) attrs)
      else
        match getEntry s2.db (toInternalCollectionName type) with
        | some _ => .ok (dbInsert s2 (toInternalCollectionName type) attrs)
        | none => .error (.configurationError (createNoModelMsg type), s2)

/-- `createList` (server.js lines 500-513): existence assertion, integer
assertion on `amount` (`_isInteger`), then `amount` iterations of
`create` (the `for (let i = 0; i < amount; i++)` loop runs `amount`
times for a positive integer `amount` and zero times otherwise). -/
def createListB (E : Engine) (env : Env) (type : String) (amount : Rat)
    (args : List Value) (s : ServerState) : Res (List Value) :=
  if !(_modelOrFactoryExistsForType env s type) then
    .error (.configurationError (createListNoModelMsg type), s)
  else if !(amount.den == 1) then
    .error (.validationError intErrMsg, s)
  else
    E.createListGoE env type args amount.num.toNat s

/-- The `createList` loop. -/
def createListGoB (E : Engine) (env : Env) (type : String) (args : List Value)
    (count : Nat) (s : ServerState) : Res (List Value) :=
  match count with
  | 0 => .ok ([], s)
  | n + 1 =>
    match E.createE env type args s with
    | .error es => .error es
    | .ok (record, s2) =>
      match E.createListGoE env type args n s2 with
      | .error es => .error es
      | .ok (list, s3) => .ok (record :: list, s3)

/-- `_mapAssociationsFromAttributes` (server.js lines 635-657): snapshot
the keys whose value is an association placeholder, then process each. -/
def mapAssocB (E : Engine) (env : Env) (modelName : String)
    (attributes overrides : AttrMap) (s : ServerState) : Res AttrMap :=
  let keys := (attributes.filter (fun p => isAssociation p.2)).map (fun p => p.1)
  E.mapAssocGoE env modelName overrides keys attributes s

/-- The per-key body of `_mapAssociationsFromAttributes`
(server.js lines 638-656): look up the relationship descriptor, assert
it is a belongs-to, assert it is not self-referential, then — unless the
override value for the original key is truthy — create the related
record from the placeholder's bundled arguments and set the foreign key
to its identity; finally delete the original key. -/
def mapAssocGoB (E : Engine) (env : Env) (modelName : String) (overrides : AttrMap)
    (keys : List String) (cur : AttrMap) (s : ServerState) : Res AttrMap :=
  match keys with
  | [] => .ok (cur, s)
  | attr :: rest =>
    match modelFor env modelName with
    | none => .error (.configurationError (modelNotRegisteredMsg modelName), s)
    | some modelAssociations =>
      let association := getEntry modelAssociations attr
      if !(isBelongsToAssoc association) then
        .error (.associationError (notBelongsToMsg attr modelName), s)
      else
        let isSelfReferentialBelongsTo :=
          match association with
          | some d => d.kind == AssocKind.belongsTo && d.modelName == modelName
          | none => false
        if isSelfReferentialBelongsTo then
          .error (.associationError (selfRefMsg modelName attr), s)
        else
          let foreignKey := camelize attr ++ "Id"
          if !(truthy ((getEntry overrides attr).getD .vUndefined)) then
            match getEntry cur attr with
            | some (.vAssoc assocArgs) =>
              match association with
              | some d =>
                match E.createE env d.modelName assocArgs s with
                | .error es => .error es
                | .ok (record, s2) =>
                  let cur := setEntry cur foreignKey (recordId record)
                  let cur := removeEntry cur attr
                  E.mapAssocGoE env modelName overrides rest cur s2
              | none => .error (.typeError "missing association descriptor", s)
            | _ =>
              .error (.typeError "spread of undefined traitsAndOverrides", s)
          else
            E.mapAssocGoE env modelName overrides rest (removeEntry cur attr) s

/-- The fuel-zero engine: every operation reports `outOfFuel`. -/
def engineZero : Engine where
  buildE := fun _ _ _ s => .error (.outOfFuel, s)
  createE := fun _ _ _ s => .error (.outOfFuel, s)
  createListE := fun _ _ _ _ s => .error (.outOfFuel, s)
  createListGoE := fun _ _ _ _ s => .error (.outOfFuel, s)
  mapAssocE := fun _ _ _ _ s => .error (.outOfFuel, s)
  mapAssocGoE := fun _ _ _ _ _ s => .error (.outOfFuel, s)

/-- One fuel step: each operation body, calling back into the previous
engine. -/
def engineStep (E : Engine) : Engine where
  buildE := buildB E
  createE := createB E
  createListE := createListB E
  createListGoE := createListGoB E
  mapAssocE := mapAssocB E
  mapAssocGoE := mapAssocGoB E

/-- The engine at a given fuel. -/
def engine : Nat → Engine
  | 0 => engineZero
  | fuel + 1 => engineStep (engine fuel)

/-- `build` (server.js lines 338-364) at the given fuel. -/
def build (fuel : Nat) (env : Env) (type : String) (args : List Value)
    (s : ServerState) : Res Value :=
  (engine fuel).buildE env type args s

/-- `create` (server.js lines 422-461) at the given fuel. -/
def create (fuel : Nat) (env : Env) (type : String) (options : List Value)
    (s : ServerState) : Res Value :=
  (engine fuel).createE env type options s

/-- `createList` (server.js lines 500-513) at the given fuel. -/
def createList (fuel : Nat) (env : Env) (type : String) (amount : Rat)
    (args : List Value) (s : ServerState) : Res (List Value) :=
  (engine fuel).createListE env type amount args s

/-- The `createList` loop at the given fuel. -/
def createListGo (fuel : Nat) (env : Env) (type : String) (args : List Value)
    (count : Nat) (s : ServerState) : Res (List Value) :=
  (engine fuel).createListGoE env type args count s

/-- `_mapAssociationsFromAttributes` (server.js lines 635-657) at the
given fuel. -/
def _mapAssociationsFromAttributes (fuel : Nat) (env : Env) (modelName : String)
    (attributes overrides : AttrMap) (s : ServerState) : Res AttrMap :=
  (engine fuel).mapAssocE env modelName attributes overrides s

/-- The per-key resolver loop at the given fuel. -/
def mapAssocGo (fuel : Nat) (env : Env) (modelName : String) (overrides : AttrMap)
    (keys : List String) (cur : AttrMap) (s : ServerState) : Res AttrMap :=
  (engine fuel).mapAssocGoE env modelName overrides keys cur s



/-!
Concrete server configurations used to settle the claims on explicit
inputs, mirroring the factory/model layouts of the repository's
documentation examples.
-/

/-- A factory for `post` with a belongs-to placeholder on `author`,
bundling an override map for the related record. -/
def postFactory : FactoryDef :=
  ⟨[("title", .vStr "T"), ("author", .vAssoc [.vObj [("name", .vStr "Ann")]])]⟩

/-- A plain factory for `author`. -/
def authorFactory : FactoryDef := ⟨[("name", .vStr "Sam")]⟩

/-- A factory for `node` with a self-referential belongs-to placeholder. -/
def nodeFactory : FactoryDef := ⟨[("label", .vStr "L"), ("parent", .vAssoc [])]⟩

/-- Configuration with `post` (belongs-to `author`, has-many `comments`),
`author` and the self-referential `node`. -/
def postEnv : Env :=
  { factories := [("post", postFactory), ("author", authorFactory), ("node", nodeFactory)],
    models :=
      [("post", [("author", ⟨.belongsTo, "author"⟩), ("comments", ⟨.hasMany, "comment"⟩)]),
       ("author", []),
       ("node", [("parent", ⟨.belongsTo, "node"⟩)])] }

/-- The pristine server state: no sequence counters, no collections. -/
def s0 : ServerState := ⟨[], []⟩

/-- The base attrs of `postFactory`, spelled out. -/
def postAttrs : AttrMap :=
  [("title", .vStr "T"), ("author", .vAssoc [.vObj [("name", .vStr "Ann")]])]

/-- Configuration with a single `author` factory whose `name` attribute is
generated from the sequence number. -/
def authorGenEnv : Env :=
  { factories := [("author", ⟨[("name", .vGen (fun i => .vStr ("user-" ++ toString i)))]⟩)],
    models := [("author", [])] }

/-- A factory with base attribute `a` and two traits `X` and `Y`. -/
def thingFactory : FactoryDef :=
  ⟨[("a", .vNum 1),
    ("X", .vTrait [("a", .vNum 2), ("b", .vNum 2)]),
    ("Y", .vTrait [("b", .vNum 3)])]⟩

/-- Configuration for the trait-composition claims. -/
def thingEnv : Env :=
  { factories := [("thing", thingFactory)], models := [("thing", [])] }

/-!
Unfolding equations of the fuel wrappers, and basic association-list
lemmas shared by the claim proofs.
-/

theorem build_succ (fuel : Nat) (env : Env) (type : String) (args : List Value)
    (s : ServerState) :
    build (fuel + 1) env type args s = buildB (engine fuel) env type args s := rfl

theorem create_succ (fuel : Nat) (env : Env) (type : String) (options : List Value)
    (s : ServerState) :
    create (fuel + 1) env type options s = createB (engine fuel) env type options s := rfl

theorem createList_succ (fuel : Nat) (env : Env) (type : String) (amount : Rat)
    (args : List Value) (s : ServerState) :
    createList (fuel + 1) env type amount args s =
      createListB (engine fuel) env type amount args s := rfl

theorem createListGo_succ (fuel : Nat) (env : Env) (type : String) (args : List Value)
    (count : Nat) (s : ServerState) :
    createListGo (fuel + 1) env type args count s =
      createListGoB (engine fuel) env type args count s := rfl

theorem mapAssoc_succ (fuel : Nat) (env : Env) (modelName : String)
    (attributes overrides : AttrMap) (s : ServerState) :
    _mapAssociationsFromAttributes (fuel + 1) env modelName attributes overrides s =
      mapAssocB (engine fuel) env modelName attributes overrides s := rfl

theorem mapAssocGo_succ (fuel : Nat) (env : Env) (modelName : String)
    (overrides : AttrMap) (keys : List String) (cur : AttrMap) (s : ServerState) :
    mapAssocGo (fuel + 1) env modelName overrides keys cur s =
      mapAssocGoB (engine fuel) env modelName overrides keys cur s := rfl

theorem engine_buildE (fuel : Nat) (env : Env) (type : String) (args : List Value)
    (s : ServerState) :
    (engine fuel).buildE env type args s = build fuel env type args s := rfl

theorem engine_createE (fuel : Nat) (env : Env) (type : String) (options : List Value)
    (s : ServerState) :
    (engine fuel).createE env type options s = create fuel env type options s := rfl

theorem engine_createListGoE (fuel : Nat) (env : Env) (type : String) (args : List Value)
    (count : Nat) (s : ServerState) :
    (engine fuel).createListGoE env type args count s =
      createListGo fuel env type args count s := rfl

theorem engine_mapAssocE (fuel : Nat) (env : Env) (modelName : String)
    (attributes overrides : AttrMap) (s : ServerState) :
    (engine fuel).mapAssocE env modelName attributes overrides s =
      _mapAssociationsFromAttributes fuel env modelName attributes overrides s := rfl

theorem engine_mapAssocGoE (fuel : Nat) (env : Env) (modelName : String)
    (overrides : AttrMap) (keys : List String) (cur : AttrMap) (s : ServerState) :
    (engine fuel).mapAssocGoE env modelName overrides keys cur s =
      mapAssocGo fuel env modelName overrides keys cur s := rfl

theorem getEntry_setEntry {α : Type} (m : List (String × α)) (k k' : String) (v : α) :
    getEntry (setEntry m k v) k' = if k == k' then some v else getEntry m k' := by
  induction m with
  | nil => simp [getEntry, setEntry]
  | cons p rest ih =>
    by_cases h : p.1 = k
    · by_cases h' : k = k' <;> simp [setEntry, getEntry, h, h']
    · by_cases h' : p.1 = k'
      · have hkk : ¬(k = k') := fun hk => h (h' ▸ hk ▸ rfl)
        have hk2 : ¬(k' = k) := fun hk => hkk hk.symm
        simp [setEntry, getEntry, h, h', hkk, hk2]
      · simp [setEntry, getEntry, h, h', ih]

theorem getEntry_setEntry_self {α : Type} (m : List (String × α)) (k : String) (v : α) :
    getEntry (setEntry m k v) k = some v := by
  simp [getEntry_setEntry]

theorem getEntry_setEntry_ne {α : Type} (m : List (String × α)) (k k' : String) (v : α)
    (h : ¬(k = k')) : getEntry (setEntry m k v) k' = getEntry m k' := by
  simp [getEntry_setEntry, h]

theorem bumpState_db (s : ServerState) (c : String) : (bumpState s c).db = s.db := rfl

theorem getEntry_bumpState_self (s : ServerState) (c : String) :
    getEntry (bumpState s c).factorySequences c =
      some (nextSeq (getEntry s.factorySequences c)) := by
  simp [bumpState, getEntry_setEntry_self]

theorem getEntry_bumpState_ne (s : ServerState) (c c' : String) (h : ¬(c = c')) :
    getEntry (bumpState s c).factorySequences c' = getEntry s.factorySequences c' := by
  simp [bumpState, getEntry_setEntry_ne _ _ _ _ h]

theorem find?_append_of_none {α : Type} (p : α → Bool) (l₁ l₂ : List α)
    (h : l₁.find? p = none) : (l₁ ++ l₂).find? p = l₂.find? p := by
  induction l₁ with
  | nil => rfl
  | cons a l ih =>
    rw [List.cons_append]
    cases hpa : p a with
    | true => simp [List.find?_cons, hpa] at h
    | false =>
      simp only [List.find?_cons, hpa, cond_false] at h ⊢
      exact ih h

theorem overridesOf_no_object (args : List Value)
    (h : args.all (fun a => !isPlainObject a) = true) :
    overridesOf args = .vUndefined := by
  have hnone : args.find? isPlainObject = none := by
    rw [List.find?_eq_none]
    intro x hx
    have hx2 := List.all_eq_true.mp h x hx
    simp at hx2
    simp [hx2]
  unfold overridesOf
  rw [hnone]
  rfl

theorem overridesOf_first_object (pre : List Value) (m : AttrMap) (rest : List Value)
    (h : pre.all (fun a => !isPlainObject a) = true) :
    overridesOf (pre ++ .vObj m :: rest) = .vObj m := by
  have hnone : pre.find? isPlainObject = none := by
    rw [List.find?_eq_none]
    intro x hx
    have hx2 := List.all_eq_true.mp h x hx
    simp at hx2
    simp [hx2]
  unfold overridesOf
  rw [find?_append_of_none _ _ _ hnone]
  rfl

theorem buildB_noFactory (E : Engine) (env : Env) (type : String) (args : List Value)
    (s : ServerState) (h : factoryFor env type = none) :
    buildB E env type args s = .ok (overridesOf args, bumpState s (camelize type)) := by
  simp only [buildB, h]

/-- The no-factory behaviour of `build` (server.js lines 338-345 and
361-363): the sequence counter for the camelized type is advanced, and
the first plain-object argument is returned verbatim. -/
theorem build_noFactory (fuel : Nat) (env : Env) (type : String) (args : List Value)
    (s : ServerState) (h : factoryFor env type = none) :
    build (fuel + 1) env type args s = .ok (overridesOf args, bumpState s (camelize type)) := by
  rw [build_succ, buildB_noFactory _ _ _ _ _ h]

/-- Claim C5: for every type with no registered factory and every
override map, build returns exactly the override map unchanged — no
attribute synthesis, no association resolution, no insertion (the db is
untouched). -/
theorem c5_build_noFactory_returns_overrides (fuel : Nat) (env : Env) (type : String)
    (m : AttrMap) (s : ServerState) (h : factoryFor env type = none) :
    build (fuel + 1) env type [.vObj m] s = .ok (.vObj m, bumpState s (camelize type)) ∧
    (bumpState s (camelize type)).db = s.db := by
  refine ⟨?_, rfl⟩
  rw [build_noFactory _ _ _ _ _ h]
  rfl

/-- Witness for C5 at type `comment` (no factory in `postEnv`). -/
theorem c5_witness :
    factoryFor postEnv "comment" = none ∧
    (build 1 postEnv "comment" [.vObj [("body", .vStr "hi")]] s0 =
        .ok (.vObj [("body", .vStr "hi")], bumpState s0 (camelize "comment")) ∧
      (bumpState s0 (camelize "comment")).db = s0.db) :=
  ⟨rfl, c5_build_noFactory_returns_overrides 0 postEnv "comment" [("body", .vStr "hi")] s0 rfl⟩

/-- Claim C10 (implicit): with no registered factory, build returns
undefined when no plain-object argument is passed (while still advancing
the sequence counter), and when several plain-object arguments are
passed only the first is used. -/
theorem c10_build_noFactory_undefined_and_first_object (fuel : Nat) (env : Env)
    (type : String) (s : ServerState) (h : factoryFor env type = none) :
    (∀ args : List Value, args.all (fun a => !isPlainObject a) = true →
      build (fuel + 1) env type args s = .ok (.vUndefined, bumpState s (camelize type))) ∧
    (∀ (pre : List Value) (m : AttrMap) (rest : List Value),
      pre.all (fun a => !isPlainObject a) = true →
      build (fuel + 1) env type (pre ++ .vObj m :: rest) s =
        .ok (.vObj m, bumpState s (camelize type))) ∧
    getEntry (bumpState s (camelize type)).factorySequences (camelize type) =
      some (nextSeq (getEntry s.factorySequences (camelize type))) := by
  refine ⟨?_, ?_, getEntry_bumpState_self s (camelize type)⟩
  · intro args hargs
    rw [build_noFactory _ _ _ _ _ h, overridesOf_no_object args hargs]
  · intro pre m rest hpre
    rw [build_noFactory _ _ _ _ _ h, overridesOf_first_object pre m rest hpre]

/-- Witness for C10: trait-name-only arguments give undefined; with two
plain objects the first wins. -/
theorem c10_witness :
    factoryFor postEnv "comment" = none ∧
    ([Value.vStr "t1"].all (fun a => !isPlainObject a) = true ∧
      build 1 postEnv "comment" [.vStr "t1"] s0 =
        .ok (.vUndefined, bumpState s0 (camelize "comment"))) ∧
    ([Value.vStr "t1"].all (fun a => !isPlainObject a) = true ∧
      build 1 postEnv "comment"
          ([Value.vStr "t1"] ++ .vObj [("x", .vNum 1)] :: [Value.vObj [("y", .vNum 2)]]) s0 =
        .ok (.vObj [("x", .vNum 1)], bumpState s0 (camelize "comment"))) :=
  ⟨rfl,
    ⟨rfl, ((c10_build_noFactory_undefined_and_first_object 0 postEnv "comment" s0 rfl).1
      [Value.vStr "t1"] rfl)⟩,
    ⟨rfl, ((c10_build_noFactory_undefined_and_first_object 0 postEnv "comment" s0 rfl).2.1
      [Value.vStr "t1"] [("x", .vNum 1)] [Value.vObj [("y", .vNum 2)]] rfl)⟩⟩

theorem build_authorGen (fuel : Nat) (s : ServerState) :
    build (fuel + 1 + 1 + 1) authorGenEnv "author" [] s =
      .ok (.vObj [("name",
          .vStr ("user-" ++ toString ((getEntry (bumpState s "author").factorySequences "author").getD 0)))],
        bumpState s "author") := rfl

/-- Claim C4: the per-type sequence counter used by build returns 0 on
the first build call for a type and then consecutive successors on each
subsequent call; counters for other (camelized) names are untouched; and
the counter advances even when no factory is registered. -/
theorem c4_sequence_counter (fuel : Nat) (s : ServerState) :
    (getEntry s.factorySequences "author" = none →
      build (fuel + 1 + 1 + 1) authorGenEnv "author" [] s =
        .ok (.vObj [("name", .vStr "user-0")], bumpState s "author") ∧
      getEntry (bumpState s "author").factorySequences "author" = some 0) ∧
    (∀ n : Nat, getEntry s.factorySequences "author" = some n →
      build (fuel + 1 + 1 + 1) authorGenEnv "author" [] s =
        .ok (.vObj [("name", .vStr ("user-" ++ toString (n + 1)))], bumpState s "author") ∧
      getEntry (bumpState s "author").factorySequences "author" = some (n + 1)) ∧
    (∀ c : String, ¬("author" = c) →
      getEntry (bumpState s "author").factorySequences c = getEntry s.factorySequences c) ∧
    (∀ (env : Env) (type : String) (args : List Value), factoryFor env type = none →
      build (fuel + 1) env type args s = .ok (overridesOf args, bumpState s (camelize type)) ∧
      getEntry (bumpState s (camelize type)).factorySequences (camelize type) =
        some (nextSeq (getEntry s.factorySequences (camelize type)))) := by
  refine ⟨?_, ?_, ?_, ?_⟩
  · intro h
    constructor
    · rw [build_authorGen, getEntry_bumpState_self, h]
      rfl
    · rw [getEntry_bumpState_self, h]
      rfl
  · intro n h
    constructor
    · rw [build_authorGen, getEntry_bumpState_self, h]
      rfl
    · rw [getEntry_bumpState_self, h]
      rfl
  · intro c hc
    exact getEntry_bumpState_ne s "author" c hc
  · intro env type args h
    exact ⟨build_noFactory fuel env type args s h, getEntry_bumpState_self s (camelize type)⟩

/-- Witness for C4: two consecutive builds from the pristine state give
sequence values 0 and 1, the counter of a different type is untouched,
and a factory-less type still advances its counter. -/
theorem c4_witness :
    (getEntry s0.factorySequences "author" = none ∧
      build 3 authorGenEnv "author" [] s0 =
        .ok (.vObj [("name", .vStr "user-0")], bumpState s0 "author") ∧
      getEntry (bumpState s0 "author").factorySequences "author" = some 0) ∧
    (getEntry (bumpState s0 "author").factorySequences "author" = some 0 ∧
      build 3 authorGenEnv "author" [] (bumpState s0 "author") =
        .ok (.vObj [("name", .vStr "user-1")], bumpState (bumpState s0 "author") "author") ∧
      getEntry (bumpState (bumpState s0 "author") "author").factorySequences "author" = some 1) ∧
    (¬("author" = "post") ∧
      getEntry (bumpState s0 "author").factorySequences "post" =
        getEntry s0.factorySequences "post") ∧
    (factoryFor authorGenEnv "nothing" = none ∧
      build 1 authorGenEnv "nothing" [] s0 =
        .ok (overridesOf [], bumpState s0 (camelize "nothing")) ∧
      getEntry (bumpState s0 (camelize "nothing")).factorySequences (camelize "nothing") =
        some (nextSeq (getEntry s0.factorySequences (camelize "nothing")))) := by
  refine ⟨⟨rfl, (c4_sequence_counter 0 s0).1 rfl⟩,
    ⟨rfl, (c4_sequence_counter 0 (bumpState s0 "author")).2.1 0 rfl⟩,
    ⟨by decide, (c4_sequence_counter 0 s0).2.2.1 "post" (by decide)⟩,
    ⟨rfl, (c4_sequence_counter 0 s0).2.2.2 authorGenEnv "nothing" [] rfl⟩⟩

/-- Counterexample to claim C1 as stated: -1 is an integer, so
`createList(T, -1)` passes the integer assertion and returns the empty
list instead of failing with a ValidationError. -/
theorem c1_counterexample :
    (-1 : Rat).den = 1 ∧
    createList 3 postEnv "author" (-1) [] s0 = .ok ([], s0) := ⟨rfl, rfl⟩

/-- Claim C1 (amended): `createList` requires its amount argument to be
an integer and fails with a ValidationError before any record is created
otherwise (so `createList(T, 1.5)` fails); a negative integer such as -1
is accepted and yields the empty list, again with no record created. -/
theorem c1_createList_integer_guard (fuel : Nat) (env : Env) (type : String)
    (amount : Rat) (args : List Value) (s : ServerState)
    (hex : _modelOrFactoryExistsForType env s type = true) :
    (amount.den ≠ 1 →
      createList (fuel + 1) env type amount args s =
        .error (.validationError intErrMsg, s)) ∧
    (amount.den = 1 → amount.num ≤ 0 →
      createList (fuel + 1 + 1) env type amount args s = .ok ([], s)) := by
  constructor
  · intro hden
    rw [createList_succ]
    have hd : (amount.den == 1) = false := by simpa using hden
    simp [createListB, hex, hd]
  · intro hden hneg
    rw [createList_succ]
    have hd : (amount.den == 1) = true := by simpa using hden
    have hz : amount.num.toNat = 0 := Int.toNat_of_nonpos hneg
    simp only [createListB, hex, hd, Bool.not_true, Bool.not_false, Bool.false_eq_true,
      if_false, ite_false]
    rw [hz, engine_createListGoE, createListGo_succ]
    rfl

/-- The rational 1.5, as the amount argument of the claim. -/
def threeHalves : Rat := ⟨3, 2, by decide, by decide⟩

/-- Witness for C1 (amended): on `postEnv`, amount 1.5 fails with the
ValidationError and amount -1 returns the empty list. -/
theorem c1_witness :
    _modelOrFactoryExistsForType postEnv s0 "author" = true ∧
    (threeHalves.den ≠ 1 ∧
      createList 1 postEnv "author" threeHalves [] s0 =
        .error (.validationError intErrMsg, s0)) ∧
    ((-1 : Rat).den = 1 ∧ (-1 : Rat).num ≤ 0 ∧
      createList 2 postEnv "author" (-1) [] s0 = .ok ([], s0)) := by
  refine ⟨rfl, ⟨by decide, ?_⟩, ⟨by decide, by decide, ?_⟩⟩
  · exact (c1_createList_integer_guard 0 postEnv "author" threeHalves [] s0 rfl).1 (by decide)
  · exact (c1_createList_integer_guard 0 postEnv "author" (-1) [] s0 rfl).2 (by decide) (by decide)

/-- Claim C3: a relationship placeholder on an attribute whose declared
belongs-to target type equals the enclosing type itself always fails
with an AssociationError, with the server state untouched — no related
record is created and no recursion happens. -/
theorem c3_selfReferential_placeholder (fuel : Nat) (env : Env) (type k : String)
    (targs : List Value) (rest : AttrMap) (overrides : AttrMap) (s : ServerState)
    (assocs : List (String × AssocDescr))
    (hm : modelFor env type = some assocs)
    (ha : getEntry assocs k = some ⟨.belongsTo, type⟩) :
    _mapAssociationsFromAttributes (fuel + 1 + 1) env type
        ((k, .vAssoc targs) :: rest) overrides s =
      .error (.associationError (selfRefMsg type k), s) := by
  rw [mapAssoc_succ]
  simp only [mapAssocB, engine_mapAssocGoE]
  rw [mapAssocGo_succ]
  simp only [List.filter_cons, isAssociation, if_true, List.map_cons, mapAssocGoB, hm, ha,
    isBelongsToAssoc]
  simp

/-- Witness for C3 on the `node` type of `postEnv`. -/
theorem c3_witness :
    modelFor postEnv "node" = some [("parent", ⟨.belongsTo, "node"⟩)] ∧
    getEntry [("parent", (⟨.belongsTo, "node"⟩ : AssocDescr))] "parent" =
      some ⟨.belongsTo, "node"⟩ ∧
    _mapAssociationsFromAttributes 2 postEnv "node" [("parent", .vAssoc [])] [] s0 =
      .error (.associationError (selfRefMsg "node" "parent"), s0) :=
  ⟨rfl, rfl,
    c3_selfReferential_placeholder 0 postEnv "node" "parent" [] [] [] s0
      [("parent", ⟨.belongsTo, "node"⟩)] rfl rfl⟩

/-- Claim C8: a relationship placeholder on an attribute with no
declared relationship descriptor, or whose descriptor is not a
belongs-to, fails with an AssociationError whose message names the
offending attribute and the type; the state is untouched, so no record
is created for the placeholder. -/
theorem c8_placeholder_not_belongsTo (fuel : Nat) (env : Env) (type k : String)
    (targs : List Value) (rest : AttrMap) (overrides : AttrMap) (s : ServerState)
    (assocs : List (String × AssocDescr))
    (hm : modelFor env type = some assocs)
    (ha : getEntry assocs k = none ∨ ∃ target, getEntry assocs k = some ⟨.hasMany, target⟩) :
    _mapAssociationsFromAttributes (fuel + 1 + 1) env type
        ((k, .vAssoc targs) :: rest) overrides s =
      .error (.associationError (notBelongsToMsg k type), s) ∧
    (∃ a b c : String, notBelongsToMsg k type = a ++ k ++ b ++ type ++ c) := by
  constructor
  · rw [mapAssoc_succ]
    simp only [mapAssocB, engine_mapAssocGoE]
    rw [mapAssocGo_succ]
    rcases ha with ha | ⟨target, ha⟩ <;>
      simp [List.filter_cons, isAssociation, List.map_cons, mapAssocGoB, hm, ha,
        isBelongsToAssoc]
  · exact ⟨"You are using the association factory helper on the ",
      " attribute of your ",
      " factory, but that attribute is not a belongsTo association. Read the Factories docs for more information: http://www.ember-cli-mirage.com/docs/v0.3.x/factories/#factories-and-relationships",
      rfl⟩

/-- Witness for C8 on the has-many `comments` attribute of `post`. -/
theorem c8_witness :
    modelFor postEnv "post" =
      some [("author", ⟨.belongsTo, "author"⟩), ("comments", ⟨.hasMany, "comment"⟩)] ∧
    getEntry [("author", (⟨.belongsTo, "author"⟩ : AssocDescr)),
        ("comments", ⟨.hasMany, "comment"⟩)] "comments" = some ⟨.hasMany, "comment"⟩ ∧
    (_mapAssociationsFromAttributes 2 postEnv "post" [("comments", .vAssoc [])] [] s0 =
        .error (.associationError (notBelongsToMsg "comments" "post"), s0) ∧
      ∃ a b c : String, notBelongsToMsg "comments" "post" = a ++ "comments" ++ b ++ "post" ++ c) :=
  ⟨rfl, rfl,
    c8_placeholder_not_belongsTo 0 postEnv "post" "comments" [] [] [] s0
      [("author", ⟨.belongsTo, "author"⟩), ("comments", ⟨.hasMany, "comment"⟩)] rfl
      (Or.inr ⟨"comment", rfl⟩)⟩

theorem stringArgs_append (a b : List Value) :
    stringArgs (a ++ b) = stringArgs a ++ stringArgs b := by
  simp [stringArgs, List.filterMap_append]

theorem stringArgs_mem_ne (l : List Value) (x : String) (hx : x ∈ stringArgs l) :
    ¬(x = "") := by
  rw [stringArgs, List.mem_filterMap] at hx
  rcases hx with ⟨a, _, ha⟩
  cases a with
  | vStr str =>
    by_cases h : str = ""
    · simp [h] at ha
    · simp only [h, if_neg, beq_iff_eq, if_false, Option.some.injEq] at ha
      exact fun hh => h (ha ▸ hh)
  | vUndefined => simp at ha
  | vNull => simp at ha
  | vBool b => simp at ha
  | vNum n => simp at ha
  | vObj m => simp at ha
  | vAssoc xs => simp at ha
  | vTrait e => simp at ha
  | vGen f => simp at ha

theorem stringArgs_map_vStr (l : List String) (h : ∀ x ∈ l, ¬(x = "")) :
    stringArgs (l.map Value.vStr) = l := by
  induction l with
  | nil => rfl
  | cons a l ih =>
    have ha : ¬(a = "") := h a (by simp)
    have ih2 := ih (fun x hx => h x (by simp [hx]))
    simp only [List.map_cons, stringArgs, List.filterMap_cons] at ih2 ⊢
    simp only [beq_iff_eq] at ih2 ⊢
    simp only [ha, if_false, ite_false]
    rw [ih2]

theorem stringArgs_map_vStr_self (l : List Value) :
    stringArgs ((stringArgs l).map Value.vStr) = stringArgs l :=
  stringArgs_map_vStr (stringArgs l) (fun x hx => stringArgs_mem_ne l x hx)

theorem stringArgs_overridesOf (options : List Value) :
    stringArgs [overridesOf options] = [] := by
  cases h : options.find? isPlainObject with
  | none => simp [overridesOf, h, stringArgs]
  | some v =>
    have hv := List.find?_some h
    cases v <;> simp_all [overridesOf, stringArgs, isPlainObject]

theorem stringArgs_roundTrip (options : List Value) :
    stringArgs ((stringArgs options).map Value.vStr ++ [overridesOf options]) =
      stringArgs options := by
  rw [stringArgs_append, stringArgs_map_vStr_self, stringArgs_overridesOf]
  simp

theorem validateTraits_unknown (F : FactoryDef) (type t : String) (rest : List String)
    (good : List String) (hg : ∀ g ∈ good, factoryIsTrait F g = true)
    (ht : factoryIsTrait F t = false) :
    _validateTraits F type (good ++ t :: rest) =
      some (.configurationError (traitErrMsg t type)) := by
  induction good with
  | nil => simp [_validateTraits, ht]
  | cons g gs ih =>
    have hgood : factoryIsTrait F g = true := hg g (by simp)
    simp only [List.cons_append, _validateTraits, hgood, if_true]
    exact ih (fun x hx => hg x (by simp [hx]))

/-- Claim C7: with a registered factory, a trait-name argument not
declared as a trait on the factory makes build (and hence create) fail
with a ConfigurationError whose message names the unknown trait and the
type, before any record is inserted (the db of the error state equals
the initial db). -/
theorem c7_unknown_trait_fails_before_insert (fuel : Nat) (env : Env) (type : String)
    (options : List Value) (s : ServerState) (F : FactoryDef)
    (good rest : List String) (t : String)
    (hex : _modelOrFactoryExistsForType env s type = true)
    (hF : factoryFor env type = some F)
    (hsplit : stringArgs options = good ++ t :: rest)
    (hg : ∀ g ∈ good, factoryIsTrait F g = true)
    (ht : factoryIsTrait F t = false) :
    create (fuel + 1 + 1) env type options s =
      .error (.configurationError (traitErrMsg t type), bumpState s (camelize type)) ∧
    (bumpState s (camelize type)).db = s.db := by
  refine ⟨?_, rfl⟩
  rw [create_succ]
  simp only [createB, hex, Bool.not_true, Bool.false_eq_true, if_false]
  rw [engine_buildE, build_succ]
  simp only [buildB]
  rw [stringArgs_roundTrip]
  simp only [hF]
  rw [hsplit, validateTraits_unknown F type t rest good hg ht]

/-- Witness for C7: creating a `thing` with the unknown trait W fails
with the ConfigurationError and inserts nothing. -/
theorem c7_witness :
    _modelOrFactoryExistsForType thingEnv s0 "thing" = true ∧
    factoryFor thingEnv "thing" = some thingFactory ∧
    stringArgs [Value.vStr "W"] = [] ++ "W" :: [] ∧
    factoryIsTrait thingFactory "W" = false ∧
    (create 2 thingEnv "thing" [.vStr "W"] s0 =
        .error (.configurationError (traitErrMsg "W" "thing"), bumpState s0 (camelize "thing")) ∧
      (bumpState s0 (camelize "thing")).db = s0.db) :=
  ⟨rfl, rfl, rfl, rfl,
    c7_unknown_trait_fails_before_insert 0 thingEnv "thing" [.vStr "W"] s0 thingFactory
      [] [] "W" rfl rfl rfl (fun g hg => absurd hg (List.not_mem_nil g)) rfl⟩

/-- The overrides map enters the resolver loop only through the
truthiness of its value at each processed key (server.js line 652):
two overrides maps with pointwise equal truthiness give identical runs. -/
theorem mapAssocGo_overrides_congr (env : Env) (modelName : String) (o1 o2 : AttrMap)
    (h : ∀ a, truthy ((getEntry o1 a).getD .vUndefined) =
      truthy ((getEntry o2 a).getD .vUndefined)) :
    ∀ (fuel : Nat) (keys : List String) (cur : AttrMap) (s : ServerState),
      mapAssocGo fuel env modelName o1 keys cur s =
        mapAssocGo fuel env modelName o2 keys cur s := by
  intro fuel
  induction fuel with
  | zero => intro keys cur s; rfl
  | succ fuel ih =>
    intro keys cur s
    rw [mapAssocGo_succ, mapAssocGo_succ]
    cases keys with
    | nil => rfl
    | cons attr rest =>
      simp only [mapAssocGoB]
      split
      · rfl
      · split
        · rfl
        · split
          · rfl
          · rw [h attr]
            split
            · split
              · split
                · split
                  · rfl
                  · rw [engine_mapAssocGoE, engine_mapAssocGoE]
                    exact ih rest _ _
                · rfl
              · rfl
            · rw [engine_mapAssocGoE, engine_mapAssocGoE]
              exact ih rest (removeEntry cur attr) s

/-- The same congruence at the `_mapAssociationsFromAttributes` level. -/
theorem mapAssoc_overrides_congr (env : Env) (modelName : String) (o1 o2 : AttrMap)
    (h : ∀ a, truthy ((getEntry o1 a).getD .vUndefined) =
      truthy ((getEntry o2 a).getD .vUndefined)) :
    ∀ (fuel : Nat) (attributes : AttrMap) (s : ServerState),
      _mapAssociationsFromAttributes fuel env modelName attributes o1 s =
        _mapAssociationsFromAttributes fuel env modelName attributes o2 s := by
  intro fuel attributes s
  cases fuel with
  | zero => rfl
  | succ fuel =>
    rw [mapAssoc_succ, mapAssoc_succ]
    simp only [mapAssocB]
    rw [engine_mapAssocGoE, engine_mapAssocGoE]
    exact mapAssocGo_overrides_congr env modelName o1 o2 h fuel _ _ _

theorem truthyLookup_single_falsy (k : String) (v : Value) (hv : truthy v = false)
    (a : String) :
    truthy ((getEntry [(k, v)] a).getD .vUndefined) =
      truthy ((getEntry ([] : AttrMap) a).getD .vUndefined) := by
  have h1 : getEntry [(k, v)] a = if k == a then some v else none := rfl
  rw [h1]
  by_cases hk : (k == a) = true
  · rw [if_pos hk]
    show truthy v = truthy ((getEntry ([] : AttrMap) a).getD .vUndefined)
    rw [hv]
    rfl
  · rw [if_neg hk]
    rfl

theorem truthyLookup_single_truthy (k : String) (v : Value) (hv : truthy v = true)
    (a : String) :
    truthy ((getEntry [(k, v)] a).getD .vUndefined) =
      truthy ((getEntry [(k, Value.vBool true)] a).getD .vUndefined) := by
  have h1 : getEntry [(k, v)] a = if k == a then some v else none := rfl
  have h2 : getEntry [(k, Value.vBool true)] a =
      if k == a then some (Value.vBool true) else none := rfl
  rw [h1, h2]
  by_cases hk : (k == a) = true
  · rw [if_pos hk, if_pos hk]
    show truthy v = truthy (Value.vBool true)
    rw [hv]
    rfl
  · rw [if_neg hk, if_neg hk]

/-- The resolved attribute map of the `post` example: foreign key set,
placeholder key removed. -/
def resolvedPost : AttrMap := [("title", .vStr "T"), ("authorId", .vNum 1)]

/-- The server state after the related `author` record has been created:
the author sequence advanced and one record (with the placeholder's
bundled override) inserted with identity 1. -/
def createdS : ServerState :=
  ⟨[("author", 0)], [("_authors", ⟨[[("name", .vStr "Ann"), ("id", .vNum 1)]], 2⟩)]⟩

/-- Counterexample to claim C2 as stated: the overrides map supplies a
value (null) for the original attribute key `author`, yet a related
author record is still created and the foreign key `authorId` is still
synthesized from the placeholder. -/
theorem c2_counterexample :
    getEntry [("author", Value.vNull)] "author" = some Value.vNull ∧
    _mapAssociationsFromAttributes 6 postEnv "post" postAttrs [("author", Value.vNull)] s0 =
      .ok (resolvedPost, createdS) := ⟨rfl, rfl⟩

theorem mem_assocKeys (attr : String) (b : List Value) :
    ∀ attributes : AttrMap, getEntry attributes attr = some (.vAssoc b) →
      attr ∈ (attributes.filter (fun p => isAssociation p.2)).map (fun p => p.1) := by
  intro attributes
  induction attributes with
  | nil => intro h; exact absurd h (by simp [getEntry])
  | cons p rest ih =>
    intro h
    by_cases hp : (p.1 == attr) = true
    · have hv : some p.2 = some (Value.vAssoc b) := by
        simp only [getEntry, hp, if_true] at h
        exact h
      have hv2 : p.2 = Value.vAssoc b := Option.some.inj hv
      have hA : isAssociation p.2 = true := by rw [hv2]; rfl
      have hpa : p.1 = attr := by simpa using hp
      rw [List.filter_cons_of_pos (by simpa using hA)]
      simp only [List.map_cons]
      rw [hpa]
      exact List.mem_cons_self _ _
    · have h2 : getEntry rest attr = some (.vAssoc b) := by
        simp only [getEntry, hp, Bool.false_eq_true, if_false] at h
        exact h
      have hmem := ih h2
      by_cases hA : isAssociation p.2 = true
      · rw [List.filter_cons_of_pos (by simpa using hA)]
        simp only [List.map_cons]
        exact List.mem_cons_of_mem _ hmem
      · rw [List.filter_cons_of_neg (by simpa using hA)]
        exact hmem

/-- Claim C2 (amended), in full generality over the environment, type,
placeholder key, bundled traits/overrides, remaining snapshot keys,
overrides map and server state.  For an attribute key whose value is a
relationship placeholder for a declared, non-self-referential belongs-to
relationship:
first, the resolver processes exactly the snapshot of
placeholder-valued keys of the attribute map, and such a key is always
in that snapshot;
second, a truthy override value for the original key makes the resolver
step create nothing — the state is passed on unchanged and no foreign
key is synthesized — while the original key is removed;
third, with a falsy or absent override value the step performs exactly
one `create` of the declared target type with the placeholder's bundled
arguments, sets the foreign-key attribute (camelized attribute name plus
the identity suffix Id) to the created record's identity, removes the
original key and continues in the state left by that single create;
fourth, in general a succeeding `create` of a model-registered type
appends exactly one record — the returned one — to the type's
collection, and that record's identity (its id attribute, the value the
foreign key receives) is the collection's next identity. -/
theorem c2_placeholder_resolution
    (env : Env) (type attr : String) (bundled : List Value) (rest : List String)
    (cur overrides : AttrMap) (s : ServerState) (fuel : Nat)
    (assocs : List (String × AssocDescr)) (target : String)
    (hm : modelFor env type = some assocs)
    (ha : getEntry assocs attr = some ⟨.belongsTo, target⟩)
    (hself : ¬(target = type))
    (hcur : getEntry cur attr = some (.vAssoc bundled)) :
    (∀ (attributes overrides2 : AttrMap) (s1 : ServerState),
      _mapAssociationsFromAttributes (fuel + 1) env type attributes overrides2 s1 =
        mapAssocGo fuel env type overrides2
          ((attributes.filter (fun p => isAssociation p.2)).map (fun p => p.1))
          attributes s1) ∧
    (∀ attributes : AttrMap, getEntry attributes attr = some (.vAssoc bundled) →
      attr ∈ (attributes.filter (fun p => isAssociation p.2)).map (fun p => p.1)) ∧
    (truthy ((getEntry overrides attr).getD .vUndefined) = true →
      mapAssocGo (fuel + 1) env type overrides (attr :: rest) cur s =
        mapAssocGo fuel env type overrides rest (removeEntry cur attr) s) ∧
    (truthy ((getEntry overrides attr).getD .vUndefined) = false →
      ∀ (record : Value) (s2 : ServerState),
        create fuel env target bundled s = .ok (record, s2) →
        mapAssocGo (fuel + 1) env type overrides (attr :: rest) cur s =
          mapAssocGo fuel env type overrides rest
            (removeEntry (setEntry cur (camelize attr ++ "Id") (recordId record)) attr)
            s2) ∧
    (∀ (fuel2 : Nat) (env2 : Env) (type2 : String) (options : List Value)
        (s1 : ServerState) (attrs : Value) (s2 : ServerState)
        (coll : DbCollection) (rec : AttrMap),
      _modelOrFactoryExistsForType env2 s1 type2 = true →
      (modelFor env2 type2).isSome = true →
      build fuel2 env2 type2 ((stringArgs options).map Value.vStr ++ [overridesOf options])
          s1 = .ok (attrs, s2) →
      coll = (getEntry s2.db (toInternalCollectionName type2)).getD ⟨[], 1⟩ →
      getEntry (objOf attrs) "id" = none →
      rec = setEntry (objOf attrs) "id" (.vNum (coll.nextId : Int)) →
      create (fuel2 + 1) env2 type2 options s1 =
        .ok (.vObj rec,
          { s2 with db := (setEntry s2.db (toInternalCollectionName type2)
              ⟨coll.records ++ [rec], coll.nextId + 1⟩) }) ∧
      recordId (.vObj rec) = .vNum (coll.nextId : Int)) := by
  have hbe : (target == type) = false := beq_eq_false_iff_ne.mpr hself
  refine ⟨fun _ _ _ => rfl, fun attributes h => mem_assocKeys attr bundled attributes h,
    ?_, ?_, ?_⟩
  · intro htr
    rw [mapAssocGo_succ]
    simp only [mapAssocGoB, hm, ha]
    simp only [isBelongsToAssoc, beq_self_eq_true, hbe, Bool.and_false, Bool.not_true,
      Bool.false_eq_true, if_false, htr]
    rw [engine_mapAssocGoE]
  · intro htr record s2 hcr
    rw [mapAssocGo_succ]
    simp only [mapAssocGoB, hm, ha]
    simp only [isBelongsToAssoc, beq_self_eq_true, hbe, Bool.and_false, Bool.not_true,
      Bool.not_false, Bool.false_eq_true, if_false, if_true, htr, hcur]
    rw [engine_createE, hcr]
    rfl
  · intro fuel2 env2 type2 options s1 attrs s2 coll rec hex hsome hb hcoll hid hrec
    constructor
    · rw [create_succ]
      simp only [createB, hex, Bool.not_true, Bool.false_eq_true, if_false]
      rw [engine_buildE, hb]
      simp only [hsome, if_true, dbInsert]
      rw [← hcoll, hid]
      simp only [Option.isSome_none, Bool.false_eq_true, if_false]
      rw [← hrec]
    · rw [hrec]
      simp only [recordId, getEntry_setEntry_self, Option.getD_some]

/-- A second factory for the C2 witness: `author2` declares a `vip`
trait. -/
def author2Factory : FactoryDef :=
  ⟨[("name", .vStr "Sam"), ("vip", .vTrait [("vip", .vBool true)])]⟩

/-- Configuration for the C2 witness: `book` belongs-to `author2`, and
the placeholder bundles both a trait name and an override map. -/
def libEnv : Env :=
  { factories :=
      [("book", ⟨[("title", .vStr "B"),
          ("author2", .vAssoc [.vStr "vip", .vObj [("name", .vStr "Ann")]])]⟩),
       ("author2", author2Factory)],
    models := [("book", [("author2", ⟨.belongsTo, "author2"⟩)]), ("author2", [])] }

/-- The base attrs of the `book` factory, spelled out. -/
def bookAttrs : AttrMap :=
  [("title", .vStr "B"), ("author2", .vAssoc [.vStr "vip", .vObj [("name", .vStr "Ann")]])]

/-- The record created for the bundled vip-trait placeholder: the trait
extension and the bundled override both applied, identity 1 assigned. -/
def libRec : AttrMap := [("name", .vStr "Ann"), ("vip", .vBool true), ("id", .vNum 1)]

/-- The server state after that single create. -/
def libS : ServerState := ⟨[("author2", 0)], [("_author2s", ⟨[libRec], 2⟩)]⟩

/-- Witness for C2 (amended) on `libEnv`, whose placeholder bundles a
trait name and an override map: snapshot membership, the truthy case,
the falsy case with the single create exhibited, and the single-insert
characterization of that create. -/
theorem c2_witness :
    getEntry bookAttrs "author2" =
      some (.vAssoc [.vStr "vip", .vObj [("name", .vStr "Ann")]]) ∧
    "author2" ∈ (bookAttrs.filter (fun p => isAssociation p.2)).map (fun p => p.1) ∧
    (truthy ((getEntry [("author2", Value.vBool true)] "author2").getD .vUndefined) = true ∧
      mapAssocGo 6 libEnv "book" [("author2", Value.vBool true)] ["author2"] bookAttrs s0 =
        mapAssocGo 5 libEnv "book" [("author2", Value.vBool true)] []
          (removeEntry bookAttrs "author2") s0) ∧
    (truthy ((getEntry [("author2", Value.vNull)] "author2").getD .vUndefined) = false ∧
      create 5 libEnv "author2" [.vStr "vip", .vObj [("name", .vStr "Ann")]] s0 =
        .ok (.vObj libRec, libS) ∧
      mapAssocGo 6 libEnv "book" [("author2", Value.vNull)] ["author2"] bookAttrs s0 =
        mapAssocGo 5 libEnv "book" [("author2", Value.vNull)] []
          (removeEntry (setEntry bookAttrs "author2Id" (.vNum 1)) "author2") libS) ∧
    (create 5 libEnv "author2" [.vStr "vip", .vObj [("name", .vStr "Ann")]] s0 =
        .ok (.vObj libRec, libS) ∧
      recordId (.vObj libRec) = .vNum 1) := by
  have H := c2_placeholder_resolution libEnv "book" "author2"
    [.vStr "vip", .vObj [("name", .vStr "Ann")]] [] bookAttrs
    [("author2", Value.vNull)] s0 5 [("author2", ⟨.belongsTo, "author2"⟩)] "author2"
    rfl rfl (by decide) rfl
  have H2 := c2_placeholder_resolution libEnv "book" "author2"
    [.vStr "vip", .vObj [("name", .vStr "Ann")]] [] bookAttrs
    [("author2", Value.vBool true)] s0 5 [("author2", ⟨.belongsTo, "author2"⟩)] "author2"
    rfl rfl (by decide) rfl
  exact ⟨rfl, H.2.1 bookAttrs rfl, ⟨rfl, H2.2.2.1 rfl⟩,
    ⟨rfl, rfl, H.2.2.2.1 rfl (.vObj libRec) libS rfl⟩,
    H.2.2.2.2 4 libEnv "author2" [.vStr "vip", .vObj [("name", .vStr "Ann")]] s0
      (.vObj [("name", .vStr "Ann"), ("vip", .vBool true)]) ⟨[("author2", 0)], []⟩
      ⟨[], 1⟩ libRec rfl rfl rfl rfl rfl rfl⟩

/-- Claim C9 (implicit): suppression of related-record creation is
decided by the truthiness of the override value, not its presence — any
falsy override value for the placeholder key behaves exactly as no
override at all (first conjunct, fully general), and in particular the
related record is still created and the foreign key still set (second
conjunct, on the `post` example with a null override). -/
theorem c9_falsy_override_still_creates (k : String) (v : Value) (hv : truthy v = false) :
    (∀ (fuel : Nat) (env : Env) (modelName : String) (attributes : AttrMap) (s : ServerState),
      _mapAssociationsFromAttributes fuel env modelName attributes [(k, v)] s =
        _mapAssociationsFromAttributes fuel env modelName attributes ([] : AttrMap) s) ∧
    _mapAssociationsFromAttributes 6 postEnv "post" postAttrs [("author", Value.vStr "")] s0 =
      .ok (resolvedPost, createdS) := by
  constructor
  · intro fuel env modelName attributes s
    exact mapAssoc_overrides_congr env modelName [(k, v)] []
      (truthyLookup_single_falsy k v hv) fuel attributes s
  · rfl

/-- Witness for C9 at the falsy override values null, false, 0 and the
empty string. -/
theorem c9_witness :
    (truthy Value.vNull = false ∧
      _mapAssociationsFromAttributes 6 postEnv "post" postAttrs [("author", Value.vNull)] s0 =
        _mapAssociationsFromAttributes 6 postEnv "post" postAttrs ([] : AttrMap) s0) ∧
    (truthy (Value.vBool false) = false ∧
      _mapAssociationsFromAttributes 6 postEnv "post" postAttrs [("author", .vBool false)] s0 =
        _mapAssociationsFromAttributes 6 postEnv "post" postAttrs ([] : AttrMap) s0) ∧
    (truthy (Value.vNum 0) = false ∧
      _mapAssociationsFromAttributes 6 postEnv "post" postAttrs [("author", .vNum 0)] s0 =
        _mapAssociationsFromAttributes 6 postEnv "post" postAttrs ([] : AttrMap) s0) ∧
    (truthy (Value.vStr "") = false ∧
      _mapAssociationsFromAttributes 6 postEnv "post" postAttrs [("author", .vStr "")] s0 =
        _mapAssociationsFromAttributes 6 postEnv "post" postAttrs ([] : AttrMap) s0) :=
  ⟨⟨rfl, (c9_falsy_override_still_creates "author" Value.vNull rfl).1 6 postEnv "post" postAttrs s0⟩,
    ⟨rfl, (c9_falsy_override_still_creates "author" (.vBool false) rfl).1 6 postEnv "post" postAttrs s0⟩,
    ⟨rfl, (c9_falsy_override_still_creates "author" (.vNum 0) rfl).1 6 postEnv "post" postAttrs s0⟩,
    ⟨rfl, (c9_falsy_override_still_creates "author" (.vStr "") rfl).1 6 postEnv "post" postAttrs s0⟩⟩

/-- First-some choice on options (the shape of JS "who wins" lookups). -/
def optOr {α : Type} : Option α → Option α → Option α
  | some v, _ => some v
  | none, o => o

theorem optOr_none_right {α : Type} (x : Option α) : optOr x none = x := by
  cases x <;> rfl

theorem optOr_assoc {α : Type} (x y z : Option α) :
    optOr (optOr x y) z = optOr x (optOr y z) := by
  cases x <;> rfl

/-- The last occurrence of a key in an association list (under JS object
assignment the later write wins). -/
def getLast {α : Type} : List (String × α) → String → Option α
  | [], _ => none
  | p :: rest, k => optOr (getLast rest k) (if p.1 == k then some p.2 else none)

theorem getEntry_objAssign (src : AttrMap) : ∀ (tgt : AttrMap) (k : String),
    getEntry (objAssign tgt src) k = optOr (getLast src k) (getEntry tgt k) := by
  induction src with
  | nil => intro tgt k; rfl
  | cons p rest ih =>
    intro tgt k
    have hstep : objAssign tgt (p :: rest) = objAssign (setEntry tgt p.1 p.2) rest := rfl
    rw [hstep, ih, getEntry_setEntry]
    cases hgl : getLast rest k with
    | some v => simp only [getLast, hgl, optOr]
    | none =>
      simp only [getLast, hgl, optOr]
      by_cases hp : (p.1 == k) = true
      · rw [if_pos hp, if_pos hp]
      · rw [if_neg hp, if_neg hp]

/-- The last-wins lookup across a list of extension maps. -/
def lastOfList {α : Type} : List (List (String × α)) → String → Option α
  | [], _ => none
  | e :: L, k => optOr (lastOfList L k) (getLast e k)

theorem getEntry_foldl_objAssign (L : List AttrMap) : ∀ (acc : AttrMap) (k : String),
    getEntry (L.foldl objAssign acc) k = optOr (lastOfList L k) (getEntry acc k) := by
  induction L with
  | nil => intro acc k; rfl
  | cons e L ih =>
    intro acc k
    rw [List.foldl_cons, ih, getEntry_objAssign]
    exact (optOr_assoc _ _ _).symm

theorem lastOfList_append {α : Type} (A B : List (List (String × α))) (k : String) :
    lastOfList (A ++ B) k = optOr (lastOfList B k) (lastOfList A k) := by
  induction A with
  | nil => exact (optOr_none_right _).symm
  | cons e A ih =>
    rw [List.cons_append]
    simp only [lastOfList]
    rw [ih]
    exact optOr_assoc _ _ _

theorem mem_keys_setEntry {α : Type} (m : List (String × α)) (k a : String) (v : α) :
    a ∈ (setEntry m k v).map Prod.fst ↔ a ∈ m.map Prod.fst ∨ a = k := by
  induction m with
  | nil => simp [setEntry]
  | cons p rest ih =>
    by_cases hp : (p.1 == k) = true
    · have hpk : p.1 = k := by simpa using hp
      simp [setEntry, hp, hpk]
      tauto
    · simp [setEntry, hp, ih]
      tauto

theorem nodup_keys_setEntry {α : Type} (m : List (String × α)) (k : String) (v : α)
    (h : (m.map Prod.fst).Nodup) : ((setEntry m k v).map Prod.fst).Nodup := by
  induction m with
  | nil => simp [setEntry]
  | cons p rest ih =>
    have h2 : (p.1 :: rest.map Prod.fst).Nodup := by simpa using h
    rcases List.nodup_cons.mp h2 with ⟨hmem, hrest⟩
    by_cases hp : (p.1 == k) = true
    · have hpk : p.1 = k := by simpa using hp
      simp only [setEntry, hp, if_true, List.map_cons, List.nodup_cons]
      exact ⟨fun hk => hmem (hpk ▸ hk), hrest⟩
    · have hpk : ¬(p.1 = k) := by simpa using hp
      simp only [setEntry, hp, if_false, List.map_cons, List.nodup_cons, Bool.false_eq_true]
      constructor
      · intro hk
        rcases (mem_keys_setEntry rest k p.1 v).mp hk with hk | hk
        · exact hmem hk
        · exact hpk hk
      · exact ih hrest

theorem nodup_keys_objAssign (src : AttrMap) : ∀ tgt : AttrMap,
    (tgt.map Prod.fst).Nodup → ((objAssign tgt src).map Prod.fst).Nodup := by
  induction src with
  | nil => intro tgt h; exact h
  | cons p rest ih =>
    intro tgt h
    exact ih (setEntry tgt p.1 p.2) (nodup_keys_setEntry tgt p.1 p.2 h)

theorem nodup_keys_foldl (L : List AttrMap) : ∀ acc : AttrMap,
    (acc.map Prod.fst).Nodup → ((L.foldl objAssign acc).map Prod.fst).Nodup := by
  induction L with
  | nil => intro acc h; exact h
  | cons e L ih =>
    intro acc h
    rw [List.foldl_cons]
    exact ih (objAssign acc e) (nodup_keys_objAssign e acc h)

theorem getLast_eq_none_of_not_mem {α : Type} (m : List (String × α)) (k : String)
    (h : k ∉ m.map Prod.fst) : getLast m k = none := by
  induction m with
  | nil => rfl
  | cons p rest ih =>
    have hp : ¬(p.1 = k) := fun hk => h (by simp [hk])
    have hrest : k ∉ rest.map Prod.fst := fun hk => h (by simp [hk])
    simp only [getLast, ih hrest]
    rw [if_neg (by simpa using hp)]
    rfl

theorem getLast_eq_getEntry {α : Type} (m : List (String × α))
    (h : (m.map Prod.fst).Nodup) (k : String) : getLast m k = getEntry m k := by
  induction m with
  | nil => rfl
  | cons p rest ih =>
    have h2 : (p.1 :: rest.map Prod.fst).Nodup := by simpa using h
    rcases List.nodup_cons.mp h2 with ⟨hmem, hrest⟩
    by_cases hp : (p.1 == k) = true
    · have hpk : p.1 = k := by simpa using hp
      have hnot : k ∉ rest.map Prod.fst := fun hk => hmem (hpk ▸ hk)
      simp only [getLast, getEntry, if_pos hp, getLast_eq_none_of_not_mem rest k hnot]
      rfl
    · simp only [getLast, getEntry, if_neg hp, optOr_none_right, ih hrest]

/-- Lookup across the applied traits, later traits winning. -/
def traitsLookup (attrs : AttrMap) : List String → String → Option Value
  | [], _ => none
  | t :: ts, k => optOr (traitsLookup attrs ts k) (getEntry (traitExtension attrs t) k)

/-- Composition following the specification text (spec section 4.2:
"base attributes, then each trait's attribute extension in the given
order — later traits override earlier ones on attribute-name collision —
then overrides, which always win"), expressed as a key lookup: the
override value if present, else the value of the last applied trait
extension containing the key, else the base value. -/
def composeSpecLookup (attrs : AttrMap) (traits : List String) (overrides : Value)
    (k : String) : Option Value :=
  optOr (getEntry (objOf overrides) k)
    (optOr (traitsLookup attrs traits k) (getEntry attrs k))

theorem lastOfList_traitExts (attrs : AttrMap) (traits : List String) (k : String)
    (h : ∀ t ∈ traits, ((traitExtension attrs t).map Prod.fst).Nodup) :
    lastOfList (traits.map (fun t => traitExtension attrs t)) k =
      traitsLookup attrs traits k := by
  induction traits with
  | nil => rfl
  | cons t ts ih =>
    simp only [List.map_cons, lastOfList, traitsLookup]
    rw [ih (fun x hx => h x (by simp [hx])),
      getLast_eq_getEntry (traitExtension attrs t) (h t (by simp)) k]

theorem mergeExtensions_eq_foldl (attrs : AttrMap) (traits : List String)
    (overrides : Value) :
    _mergeExtensions attrs traits overrides =
      ((traits.map (fun t => traitExtension attrs t)) ++ [objOf overrides]).foldl
        objAssign [] := rfl

/-- Claim C6: trait composition merges with precedence lowest to
highest — base attributes, then each applied trait's extension in the
given order (later traits win), then the overrides map, which always
wins.  First conjunct: the concrete instance base a=1, X = a=2,b=2,
Y = b=3, overrides a=9 composes through a full build to a=9, b=3.
Second conjunct: the merged lookup of the source equals the
specification-text composition at every key (for key-duplicate-free
trait extensions and overrides). -/
theorem c6_trait_precedence (fuel : Nat) :
    (build (fuel + 1 + 1 + 1) thingEnv "thing"
        [.vStr "X", .vStr "Y", .vObj [("a", .vNum 9)]] s0 =
      .ok (.vObj [("a", .vNum 9), ("b", .vNum 3)], ⟨[("thing", 0)], []⟩)) ∧
    (∀ (attrs : AttrMap) (traits : List String) (overrides : Value) (k : String),
      (∀ t ∈ traits, ((traitExtension attrs t).map Prod.fst).Nodup) →
      ((objOf overrides).map Prod.fst).Nodup →
      getEntry (objAssign attrs (_mergeExtensions attrs traits overrides)) k =
        composeSpecLookup attrs traits overrides k) := by
  constructor
  · rfl
  · intro attrs traits overrides k htraits hov
    rw [mergeExtensions_eq_foldl, getEntry_objAssign,
      getLast_eq_getEntry _ (nodup_keys_foldl _ [] (by simp)) k,
      getEntry_foldl_objAssign, lastOfList_append]
    simp only [lastOfList, optOr_none_right]
    rw [getLast_eq_getEntry (objOf overrides) hov k, lastOfList_traitExts attrs traits k htraits]
    show optOr (optOr (optOr (getEntry (objOf overrides) k) (traitsLookup attrs traits k)) none)
        (getEntry attrs k) = composeSpecLookup attrs traits overrides k
    rw [optOr_none_right, optOr_assoc]
    rfl

/-- Witness for C6: the general precedence lookup at the concrete
base/X/Y/overrides instance, at both keys. -/
theorem c6_witness :
    (∀ t ∈ ["X", "Y"], ((traitExtension thingFactory.attrs t).map Prod.fst).Nodup) ∧
    ((objOf (Value.vObj [("a", Value.vNum 9)])).map Prod.fst).Nodup ∧
    getEntry (objAssign thingFactory.attrs
        (_mergeExtensions thingFactory.attrs ["X", "Y"] (.vObj [("a", .vNum 9)]))) "a" =
      composeSpecLookup thingFactory.attrs ["X", "Y"] (.vObj [("a", .vNum 9)]) "a" ∧
    getEntry (objAssign thingFactory.attrs
        (_mergeExtensions thingFactory.attrs ["X", "Y"] (.vObj [("a", .vNum 9)]))) "b" =
      composeSpecLookup thingFactory.attrs ["X", "Y"] (.vObj [("a", .vNum 9)]) "b" := by
  have ht : ∀ t ∈ ["X", "Y"], ((traitExtension thingFactory.attrs t).map Prod.fst).Nodup := by
    intro t hmem
    cases hmem with
    | head => decide
    | tail _ hmem2 =>
      cases hmem2 with
      | head => decide
      | tail _ hmem3 => cases hmem3
  refine ⟨ht, by decide, ?_, ?_⟩
  · exact (c6_trait_precedence 0).2 thingFactory.attrs ["X", "Y"]
      (.vObj [("a", .vNum 9)]) "a" ht (by decide)
  · exact (c6_trait_precedence 0).2 thingFactory.attrs ["X", "Y"]
      (.vObj [("a", .vNum 9)]) "b" ht (by decide)

end Mirage
